import Mathlib

/-!
Shallow embedding of `include/crps/crps.hpp` (cereal raw-pointer support).

The header layers pointer-identity bookkeeping over a primitive cereal
engine.  Four classes carry all the behaviour the specification talks
about:

* `CRPSOutputMapper`  — save-side tracker (address → object-id map,
  pointer-occurrence list, `complete` emitting the identity map);
* `CRPSInputMapper`   — load-side tracker (object-id → address table,
  pointer-slot list, deferred pointer writes, `complete` resolving them);
* `CRPSOutputArchive` / `CRPSInputArchive` — wrappers forwarding every
  visit to the real engine and to the mapper, with a `completed` flag and
  a one-shot `complete` step.

Memory identity is modelled by an explicit address type with a
distinguished null address (C++ objects never live at address null, but a
pointer value may be null).  The heap that deferred pointer writes mutate
is a total map from addresses to pointer values.  C++ exceptions become an
explicit error component; the distinct `CRPSException` message strings
become constructors of `CRPSError`.
-/

/-- A memory identity: the null address or a concrete object address. -/
inductive Addr where
  | null : Addr
  | loc : Nat → Addr
deriving DecidableEq, Repr

/-- The load-time memory: each pointer slot address holds a pointer value. -/
def Heap : Type := Addr → Addr

/-- The distinct `CRPSException` causes raised by `crps.hpp`
(one constructor per `throw CRPSException(...)` site). -/
inductive CRPSError where
  /-- "Memory address ... not found in serialization traversal"
  (`CRPSOutputMapper::complete`). -/
  | memoryAddressNotFound : Addr → CRPSError
  /-- "Size of raw_ptr_to_obj_id map loaded from input archive does not
  match size of map generated from traversal" (`CRPSInputMapper::complete`). -/
  | sizeMismatch : CRPSError
  /-- "Pointer at memory address ... has object index exceeding object
  traversal count" (`CRPSInputMapper::complete`). -/
  | objectIndexExceedsCount : Addr → CRPSError
  /-- "Attempted serialization after CRPSArchiveBase::complete called"
  (`CRPSOutputArchive::handle`, `CRPSInputArchive::handle`). -/
  | serializationAfterComplete : CRPSError
deriving DecidableEq, Repr

/-- `map_insert_count` is a `std::uint32_t`; its increments wrap at 2^32. -/
def UINT32_MOD : Nat := 2 ^ 32

/-- State of `crps::CRPSOutputMapper`: the `obj_ptr_to_id` unordered map
(modelled as a function to `Option`), the `map_insert_count` counter and
the `raw_ptr_values` vector.  (The class also declares a `completed` flag,
but no member function of `CRPSOutputMapper` ever reads or writes it, so
it is omitted here as dead state.) -/
structure CRPSOutputMapper where
  obj_ptr_to_id : Addr → Option Nat
  map_insert_count : Nat
  raw_ptr_values : List Addr

/-- `CRPSOutputMapper::CRPSOutputMapper`: the empty map associates the
nullptr address with object-id 0 (post-increment leaves the counter at 1). -/
def CRPSOutputMapper.init : CRPSOutputMapper where
  obj_ptr_to_id := fun a => if a = Addr.null then some 0 else none
  map_insert_count := 1
  raw_ptr_values := []

/-- `CRPSOutputMapper::trackAddress`: `obj_ptr_to_id[addressof(t)] =
map_insert_count++` — associate the unit's address with the next object-id,
overwriting any earlier entry, and bump the uint32 counter. -/
def CRPSOutputMapper.trackAddress (s : CRPSOutputMapper) (a : Addr) :
    CRPSOutputMapper where
  obj_ptr_to_id := fun x => if x = a then some s.map_insert_count else s.obj_ptr_to_id x
  map_insert_count := (s.map_insert_count + 1) % UINT32_MOD
  raw_ptr_values := s.raw_ptr_values

/-- `CRPSOutputMapper::trackPointer`: push the pointer's current value
(target address) onto `raw_ptr_values`, then `trackAddress(p)` — in C++
`p` is an lvalue reference to the pointer slot, so the tracked address is
the slot's own address. -/
def CRPSOutputMapper.trackPointer (s : CRPSOutputMapper)
    (slot target : Addr) : CRPSOutputMapper :=
  CRPSOutputMapper.trackAddress
    { s with raw_ptr_values := s.raw_ptr_values ++ [target] } slot

/-- The loop body of `CRPSOutputMapper::complete`: for each recorded
pointer value, look its target up in `obj_ptr_to_id`; the first absent
target raises the not-found error, otherwise collect the ids in order. -/
def buildRawToObj (m : Addr → Option Nat) : List Addr → Except CRPSError (List Nat)
  | [] => Except.ok []
  | rpv :: rest =>
    match m rpv with
    | none => Except.error (CRPSError.memoryAddressNotFound rpv)
    | some id => (buildRawToObj m rest).map (fun l => id :: l)

/-- `CRPSOutputMapper::complete(output_archive)`: build `raw_to_obj` from
the recorded pointer values and emit it into the engine's stream
(`output_archive(raw_to_obj)` appends one integer sequence after whatever
the engine already holds).  Note: the mapper does not consult or set any
completion flag of its own. -/
def CRPSOutputMapper.complete (s : CRPSOutputMapper)
    (engine : List (List Nat)) : Except CRPSError (List (List Nat)) :=
  (buildRawToObj s.obj_ptr_to_id s.raw_ptr_values).map (fun ids => engine ++ [ids])

/-- The deferred pointer-initialization closure built in
`CRPSInputMapper::trackPointer`:
`[](void* raw, void* obj_address) { *static_cast<T**>(raw) = static_cast<T*>(obj_address); }`
— write the resolved target address into the slot at `raw`. -/
def writeDeferment (raw obj : Addr) (h : Heap) : Heap :=
  fun a => if a = raw then obj else h a

/-- State of `crps::CRPSInputMapper`: `obj_ptrs` (object-id → address
table), `raw_ptrs` (pointer-slot addresses) and `deferedPtrLoads` (the
type-erased deferred writes).  Its `completed` flag is likewise dead and
omitted. -/
structure CRPSInputMapper where
  obj_ptrs : List Addr
  raw_ptrs : List Addr
  deferedPtrLoads : List (Addr → Addr → Heap → Heap)

/-- `CRPSInputMapper::CRPSInputMapper`: the table starts with index 0
holding nullptr. -/
def CRPSInputMapper.init : CRPSInputMapper where
  obj_ptrs := [Addr.null]
  raw_ptrs := []
  deferedPtrLoads := []

/-- `CRPSInputMapper::trackAddress`: append the freshly constructed unit's
address to `obj_ptrs` (its index is its object-id). -/
def CRPSInputMapper.trackAddress (s : CRPSInputMapper) (a : Addr) :
    CRPSInputMapper where
  obj_ptrs := s.obj_ptrs ++ [a]
  raw_ptrs := s.raw_ptrs
  deferedPtrLoads := s.deferedPtrLoads

/-- `CRPSInputMapper::trackPointer`: append the slot's own address to
`raw_ptrs`, append the type-specific deferred write, then `trackAddress`
on the slot itself. -/
def CRPSInputMapper.trackPointer (s : CRPSInputMapper) (slot : Addr) :
    CRPSInputMapper :=
  CRPSInputMapper.trackAddress
    { s with
      raw_ptrs := s.raw_ptrs ++ [slot]
      deferedPtrLoads := s.deferedPtrLoads ++ [writeDeferment] } slot

/-- The fix-up loop of `CRPSInputMapper::complete`: walk the deferred
writes, slots and read ids in step; a read id out of range of `obj_ptrs`
raises the range error on the spot (writes already performed stay in the
heap), otherwise perform the deferred write `deferedPtrLoads[i](raw_ptrs[i],
obj_ptrs[raw_to_obj[i]])` and continue. -/
def completeLoop : List (Addr → Addr → Heap → Heap) → List Addr → List Nat →
    List Addr → Heap → Heap × Option CRPSError
  | f :: fs, raw :: raws, id :: ids, obj_ptrs, h =>
    match obj_ptrs[id]? with
    | some obj => completeLoop fs raws ids obj_ptrs (f raw obj h)
    | none => (h, some (CRPSError.objectIndexExceedsCount raw))
  | _, _, _, _, h => (h, none)

/-- `CRPSInputMapper::complete(input_archive)`: `raw_to_obj` is the id
sequence the engine read back from the stream.  Fail with the
size-mismatch error before touching anything if its length differs from
`raw_ptrs`; otherwise run the per-position fix-up loop.  As on the save
side, no completion flag of the mapper itself is consulted or set. -/
def CRPSInputMapper.complete (s : CRPSInputMapper) (raw_to_obj : List Nat)
    (h : Heap) : Heap × Option CRPSError :=
  if raw_to_obj.length ≠ s.raw_ptrs.length then
    (h, some CRPSError.sizeMismatch)
  else
    completeLoop s.deferedPtrLoads s.raw_ptrs raw_to_obj s.obj_ptrs h

/-- One visit event of a traversal, carrying both the save-time and the
matching load-time memory identities (both sides run the same user
traversal code, so the event sequences have identical shape and differ
only in addresses).  The constructors mirror the
`CEREAL_SAVE_FUNCTION_NAME` specializations at the bottom of `crps.hpp`:
arithmetic values and `PtrWrapper<ThisPointer<T>&>` both land in
`trackAddress`; `PtrWrapper<T*&>` lands in `trackPointer`; `BinaryData`
is a do-nothing case.  (`NameValuePair` and `SizeTag` merely unwrap to an
inner visit and introduce no event of their own.) -/
inductive Ev where
  /-- A tracked unit (arithmetic field or `ThisPointer` referent):
  save-time address, load-time address. -/
  | unit : Addr → Addr → Ev
  /-- A raw-pointer occurrence: save-time slot address, save-time pointer
  value (target), load-time slot address. -/
  | ptr : Addr → Addr → Addr → Ev
  /-- `BinaryData`: ignored by both mappers. -/
  | binary : Ev
deriving DecidableEq, Repr

/-- Dispatch of one event into the save-side mapper (the
`CRPSOutputMapper` serialize-function specializations). -/
def CRPSOutputMapper.visit (s : CRPSOutputMapper) : Ev → CRPSOutputMapper
  | Ev.unit sa _ => s.trackAddress sa
  | Ev.ptr sslot starget _ => s.trackPointer sslot starget
  | Ev.binary => s

/-- Dispatch of one event into the load-side mapper (the
`CRPSInputMapper` serialize-function specializations). -/
def CRPSInputMapper.visit (s : CRPSInputMapper) : Ev → CRPSInputMapper
  | Ev.unit _ la => s.trackAddress la
  | Ev.ptr _ _ lslot => s.trackPointer lslot
  | Ev.binary => s

/-- Run a traversal through the save-side mapper. -/
def runOutM (s : CRPSOutputMapper) : List Ev → CRPSOutputMapper
  | [] => s
  | e :: rest => runOutM (s.visit e) rest

/-- Run a traversal through the load-side mapper. -/
def runInM (s : CRPSInputMapper) : List Ev → CRPSInputMapper
  | [] => s
  | e :: rest => runInM (s.visit e) rest

/-- State of `crps::CRPSOutputArchive<Archive>`: the visits forwarded to
the real engine (its primary payload), the trailing integer sequences the
engine received after the payload, the embedded `CRPSOutputMapper` and
the `completed` flag. -/
structure OutArchiveState where
  engineVisits : List Ev
  trailing : List (List Nat)
  pointer_mapper : CRPSOutputMapper
  completed : Bool

/-- A freshly constructed `CRPSOutputArchive` over an engine whose stream
already holds `payload` visits. -/
def OutArchiveState.make (payload : List Ev) : OutArchiveState where
  engineVisits := payload
  trailing := []
  pointer_mapper := CRPSOutputMapper.init
  completed := false

/-- `CRPSOutputArchive::handle`: throw if `completed`, forwarding nothing;
otherwise forward the visits to the real engine and then to the mapper.
(`operator()` is variadic, so one call carries a list of visits checked
against `completed` once.) -/
def OutArchiveState.handle (ar : OutArchiveState) (evs : List Ev) :
    OutArchiveState × Option CRPSError :=
  if ar.completed then
    (ar, some CRPSError.serializationAfterComplete)
  else
    ({ ar with
        engineVisits := ar.engineVisits ++ evs
        pointer_mapper := runOutM ar.pointer_mapper evs }, none)

/-- `CRPSOutputArchive::operator()`. -/
def OutArchiveState.callOp (ar : OutArchiveState) (evs : List Ev) :
    OutArchiveState × Option CRPSError :=
  ar.handle evs

/-- `CRPSOutputArchive::operator&` (boost compatibility, one visit). -/
def OutArchiveState.ampOp (ar : OutArchiveState) (ev : Ev) :
    OutArchiveState × Option CRPSError :=
  ar.handle [ev]

/-- `CRPSOutputArchive::operator<<` (boost compatibility, one visit). -/
def OutArchiveState.shlOp (ar : OutArchiveState) (ev : Ev) :
    OutArchiveState × Option CRPSError :=
  ar.handle [ev]

/-- `CRPSOutputArchive::complete`: return at once when already completed;
otherwise set `completed` first (before any finalize I/O) and then run
`pointer_mapper.complete(archive)`, which on success appends the identity
map to the engine's trailing stream and on failure leaves it untouched
(the exception is raised before `output_archive(raw_to_obj)`).
`archive.serializeDeferments()` is engine-internal and adds nothing to
the modelled state.  The destructor calls this same function. -/
def OutArchiveState.complete (ar : OutArchiveState) :
    OutArchiveState × Option CRPSError :=
  if ar.completed then
    (ar, none)
  else
    let ar1 := { ar with completed := true }
    match ar1.pointer_mapper.complete ar1.trailing with
    | Except.ok tr => ({ ar1 with trailing := tr }, none)
    | Except.error e => (ar1, some e)

/-- State of `crps::CRPSInputArchive<Archive>`: the visits forwarded to
the real engine, the trailing id sequence the engine will read back at
`complete`, the load-time heap the deferred writes mutate, the embedded
`CRPSInputMapper` and the `completed` flag. -/
structure InArchiveState where
  engineVisits : List Ev
  streamIds : List Nat
  heap : Heap
  pointer_mapper : CRPSInputMapper
  completed : Bool

/-- A freshly constructed `CRPSInputArchive` over an engine whose stream
carries `ids` as its trailing identity map, with initial heap `h`. -/
def InArchiveState.make (ids : List Nat) (h : Heap) : InArchiveState where
  engineVisits := []
  streamIds := ids
  heap := h
  pointer_mapper := CRPSInputMapper.init
  completed := false

/-- `CRPSInputArchive::handle`: throw if `completed`, forwarding nothing;
otherwise forward to the real engine and then to the mapper. -/
def InArchiveState.handle (ar : InArchiveState) (evs : List Ev) :
    InArchiveState × Option CRPSError :=
  if ar.completed then
    (ar, some CRPSError.serializationAfterComplete)
  else
    ({ ar with
        engineVisits := ar.engineVisits ++ evs
        pointer_mapper := runInM ar.pointer_mapper evs }, none)

/-- `CRPSInputArchive::operator()`. -/
def InArchiveState.callOp (ar : InArchiveState) (evs : List Ev) :
    InArchiveState × Option CRPSError :=
  ar.handle evs

/-- `CRPSInputArchive::operator&` (boost compatibility, one visit). -/
def InArchiveState.ampOp (ar : InArchiveState) (ev : Ev) :
    InArchiveState × Option CRPSError :=
  ar.handle [ev]

/-- `CRPSInputArchive::operator>>` (boost compatibility, one visit). -/
def InArchiveState.shrOp (ar : InArchiveState) (ev : Ev) :
    InArchiveState × Option CRPSError :=
  ar.handle [ev]

/-- `CRPSInputArchive::complete`: return at once when already completed;
otherwise set `completed` first and run `pointer_mapper.complete`, which
reads the trailing id sequence and performs the deferred pointer writes
into the heap (partially, when the range error strikes mid-loop).  The
destructor calls this same function. -/
def InArchiveState.complete (ar : InArchiveState) :
    InArchiveState × Option CRPSError :=
  if ar.completed then
    (ar, none)
  else
    let ar1 := { ar with completed := true }
    let res := ar1.pointer_mapper.complete ar1.streamIds ar1.heap
    ({ ar1 with heap := res.1 }, res.2)

/-- Sequential application of the deferred pointer writes: each pair is
(slot address, resolved target value). -/
def applyWrites (ps : List (Addr × Addr)) (h : Heap) : Heap :=
  ps.foldl (fun hh p => writeDeferment p.1 p.2 hh) h

/-- A sequence of `trackAddress` calls on the save-side mapper. -/
def trackAll (s : CRPSOutputMapper) (addrs : List Addr) : CRPSOutputMapper :=
  addrs.foldl CRPSOutputMapper.trackAddress s

/-! ### Basic facts about the save-side tracker -/

theorem trackAll_append (s : CRPSOutputMapper) (l₁ l₂ : List Addr) :
    trackAll s (l₁ ++ l₂) = trackAll (trackAll s l₁) l₂ :=
  List.foldl_append _ _ _ _

theorem trackAll_not_mem (s : CRPSOutputMapper) (addrs : List Addr) (a : Addr)
    (ha : a ∉ addrs) :
    (trackAll s addrs).obj_ptr_to_id a = s.obj_ptr_to_id a := by
  induction addrs generalizing s with
  | nil => rfl
  | cons b rest ih =>
    have hne : a ≠ b := fun h => ha (h ▸ List.mem_cons_self b rest)
    have hrest : a ∉ rest := fun h => ha (List.mem_cons_of_mem b h)
    calc (trackAll s (b :: rest)).obj_ptr_to_id a
        = (s.trackAddress b).obj_ptr_to_id a := ih _ hrest
      _ = s.obj_ptr_to_id a := by
          simp [CRPSOutputMapper.trackAddress, hne]

/-- C6: `trackAddress` assigns the next sequential object-id to the unit's
address, overwriting any earlier assignment for that address (other
addresses are untouched); the uint32 counter advances on every call; and
after any sequence of track calls the map answers with the id assigned at
the most recent visit of an address (last write wins). -/
theorem crps_trackAddress_last_write_wins (s : CRPSOutputMapper)
    (a b : Addr) (pre post : List Addr) (hb : b ≠ a) (hpost : a ∉ post) :
    (s.trackAddress a).obj_ptr_to_id a = some s.map_insert_count
    ∧ (s.trackAddress a).obj_ptr_to_id b = s.obj_ptr_to_id b
    ∧ (s.trackAddress a).map_insert_count = (s.map_insert_count + 1) % UINT32_MOD
    ∧ (trackAll s (pre ++ a :: post)).obj_ptr_to_id a
        = some ((trackAll s pre).map_insert_count) := by
  refine ⟨by simp [CRPSOutputMapper.trackAddress], ?_, rfl, ?_⟩
  · simp [CRPSOutputMapper.trackAddress, hb]
  · rw [trackAll_append]
    have h1 : trackAll (trackAll s pre) (a :: post)
        = trackAll ((trackAll s pre).trackAddress a) post := rfl
    rw [h1, trackAll_not_mem _ _ _ hpost]
    simp [CRPSOutputMapper.trackAddress]

/-- C6 witness: a concrete last-write-wins instance. -/
theorem crps_trackAddress_last_write_wins_witness :
    ((CRPSOutputMapper.init.trackAddress (Addr.loc 1)).obj_ptr_to_id (Addr.loc 1)
        = some CRPSOutputMapper.init.map_insert_count)
    ∧ ((CRPSOutputMapper.init.trackAddress (Addr.loc 1)).obj_ptr_to_id (Addr.loc 2)
        = CRPSOutputMapper.init.obj_ptr_to_id (Addr.loc 2))
    ∧ ((CRPSOutputMapper.init.trackAddress (Addr.loc 1)).map_insert_count
        = (CRPSOutputMapper.init.map_insert_count + 1) % UINT32_MOD)
    ∧ ((trackAll CRPSOutputMapper.init ([Addr.loc 3] ++ Addr.loc 1 :: [Addr.loc 4])).obj_ptr_to_id (Addr.loc 1)
        = some ((trackAll CRPSOutputMapper.init [Addr.loc 3]).map_insert_count)) :=
  crps_trackAddress_last_write_wins CRPSOutputMapper.init (Addr.loc 1)
    (Addr.loc 2) [Addr.loc 3] [Addr.loc 4] (by decide) (by decide)

/-- C8: on save, `trackPointer` appends the pointer's current target to the
pointer-occurrence list and then assigns the next object-id to the slot's
own address; on load, `trackPointer` appends the slot's address to the
pointer-slot list together with the deferred assign action and then
appends the slot's address to the id→address table, so both sides consume
exactly one object-id per pointer occurrence. -/
theorem crps_trackPointer_tracks_slot (sOut : CRPSOutputMapper)
    (sIn : CRPSInputMapper) (slot target lslot : Addr) :
    (sOut.trackPointer slot target).raw_ptr_values = sOut.raw_ptr_values ++ [target]
    ∧ (sOut.trackPointer slot target).obj_ptr_to_id slot = some sOut.map_insert_count
    ∧ (sOut.trackPointer slot target).map_insert_count
        = (sOut.map_insert_count + 1) % UINT32_MOD
    ∧ (sIn.trackPointer lslot).raw_ptrs = sIn.raw_ptrs ++ [lslot]
    ∧ (sIn.trackPointer lslot).deferedPtrLoads
        = sIn.deferedPtrLoads ++ [writeDeferment]
    ∧ (sIn.trackPointer lslot).obj_ptrs = sIn.obj_ptrs ++ [lslot]
    ∧ (sIn.trackPointer lslot).obj_ptrs.length = sIn.obj_ptrs.length + 1 := by
  refine ⟨rfl, ?_, rfl, rfl, rfl, rfl, by simp [CRPSInputMapper.trackPointer, CRPSInputMapper.trackAddress]⟩
  simp [CRPSOutputMapper.trackPointer, CRPSOutputMapper.trackAddress]

/-! ### The save-side finalize loop -/

theorem buildRawToObj_ok_length {m : Addr → Option Nat} {l : List Addr}
    {ids : List Nat} (h : buildRawToObj m l = Except.ok ids) :
    ids.length = l.length := by
  induction l generalizing ids with
  | nil =>
    simp only [buildRawToObj] at h
    cases h
    rfl
  | cons t rest ih =>
    simp only [buildRawToObj] at h
    cases hm : m t with
    | none => rw [hm] at h; cases h
    | some id =>
      rw [hm] at h
      cases hr : buildRawToObj m rest with
      | error e => rw [hr] at h; cases h
      | ok ids' =>
        rw [hr] at h
        cases h
        simp [ih hr]

theorem buildRawToObj_ok_getD {m : Addr → Option Nat} {l : List Addr}
    {ids : List Nat} (h : buildRawToObj m l = Except.ok ids) :
    ∀ j, j < l.length → m (l.getD j Addr.null) = some (ids.getD j 0) := by
  induction l generalizing ids with
  | nil => intro j hj; cases hj
  | cons t rest ih =>
    simp only [buildRawToObj] at h
    cases hm : m t with
    | none => rw [hm] at h; cases h
    | some id =>
      rw [hm] at h
      cases hr : buildRawToObj m rest with
      | error e => rw [hr] at h; cases h
      | ok ids' =>
        rw [hr] at h
        cases h
        intro j hj
        cases j with
        | zero => simpa using hm
        | succ j' =>
          have hj' : j' < rest.length := Nat.lt_of_succ_lt_succ hj
          simpa using ih hr j' hj'

theorem buildRawToObj_ok_mem {m : Addr → Option Nat} {l : List Addr}
    {ids : List Nat} (h : buildRawToObj m l = Except.ok ids) :
    ∀ i ∈ ids, ∃ t ∈ l, m t = some i := by
  induction l generalizing ids with
  | nil =>
    simp only [buildRawToObj] at h
    cases h
    intro i hi
    cases hi
  | cons t rest ih =>
    simp only [buildRawToObj] at h
    cases hm : m t with
    | none => rw [hm] at h; cases h
    | some id =>
      rw [hm] at h
      cases hr : buildRawToObj m rest with
      | error e => rw [hr] at h; cases h
      | ok ids' =>
        rw [hr] at h
        cases h
        intro i hi
        rcases List.mem_cons.mp hi with hi0 | hi1
        · exact ⟨t, List.mem_cons_self t rest, hi0 ▸ hm⟩
        · rcases ih hr i hi1 with ⟨u, hu, hmu⟩
          exact ⟨u, List.mem_cons_of_mem t hu, hmu⟩

theorem buildRawToObj_total {m : Addr → Option Nat} {l : List Addr}
    (h : ∀ t ∈ l, (m t).isSome) :
    ∃ ids, buildRawToObj m l = Except.ok ids := by
  induction l with
  | nil => exact ⟨[], rfl⟩
  | cons t rest ih =>
    have ht : (m t).isSome := h t (List.mem_cons_self t rest)
    cases hm : m t with
    | none => rw [hm] at ht; cases ht
    | some id =>
      rcases ih (fun u hu => h u (List.mem_cons_of_mem t hu)) with ⟨ids, hids⟩
      exact ⟨id :: ids, by simp [buildRawToObj, hm, hids, Except.map]⟩

theorem buildRawToObj_fails {m : Addr → Option Nat} {l : List Addr}
    (h : ∃ t ∈ l, m t = none) :
    ∃ u ∈ l, m u = none
      ∧ buildRawToObj m l = Except.error (CRPSError.memoryAddressNotFound u) := by
  induction l with
  | nil => rcases h with ⟨t, ht, _⟩; cases ht
  | cons t rest ih =>
    cases hm : m t with
    | none =>
      exact ⟨t, List.mem_cons_self t rest, hm, by simp [buildRawToObj, hm]⟩
    | some id =>
      rcases h with ⟨u, hu, hmu⟩
      rcases List.mem_cons.mp hu with hu0 | hu1
      · rw [hu0, hm] at hmu; cases hmu
      · rcases ih ⟨u, hu1, hmu⟩ with ⟨v, hv, hmv, hbv⟩
        exact ⟨v, List.mem_cons_of_mem t hv, hmv,
          by simp [buildRawToObj, hm, hbv, Except.map]⟩

/-- C3: save-side finalize fails with the address-not-found graph identity
error exactly when some recorded pointer occurrence's target address is
absent from the address→id map; otherwise it appends to the real engine's
stream — after everything the engine already holds — the ordered sequence
of looked-up object-ids, one per pointer occurrence in traversal order. -/
theorem crps_save_finalize (s : CRPSOutputMapper) (engine : List (List Nat)) :
    ((∃ t ∈ s.raw_ptr_values, s.obj_ptr_to_id t = none) →
      ∃ u ∈ s.raw_ptr_values, s.obj_ptr_to_id u = none
        ∧ s.complete engine = Except.error (CRPSError.memoryAddressNotFound u))
    ∧ ((∀ t ∈ s.raw_ptr_values, (s.obj_ptr_to_id t).isSome) →
      ∃ ids, s.complete engine = Except.ok (engine ++ [ids])
        ∧ ids.length = s.raw_ptr_values.length
        ∧ ∀ j, j < s.raw_ptr_values.length →
            s.obj_ptr_to_id (s.raw_ptr_values.getD j Addr.null)
              = some (ids.getD j 0)) := by
  constructor
  · intro h
    rcases buildRawToObj_fails h with ⟨u, hu, hmu, hb⟩
    exact ⟨u, hu, hmu, by simp [CRPSOutputMapper.complete, hb, Except.map]⟩
  · intro h
    rcases buildRawToObj_total h with ⟨ids, hids⟩
    exact ⟨ids, by simp [CRPSOutputMapper.complete, hids, Except.map],
      buildRawToObj_ok_length hids, buildRawToObj_ok_getD hids⟩

/-- A concrete save-side traversal used by witnesses: one tracked unit at
save address 10 (load address 20), a pointer at slot 11 targeting it, and
a pointer at slot 12 holding null. -/
def evsSmall : List Ev :=
  [Ev.unit (Addr.loc 10) (Addr.loc 20),
   Ev.ptr (Addr.loc 11) (Addr.loc 10) (Addr.loc 21),
   Ev.ptr (Addr.loc 12) Addr.null (Addr.loc 22)]

/-- A concrete save-side mapper state whose pointer list holds a target
that was never traversed. -/
def danglingMapper : CRPSOutputMapper where
  obj_ptr_to_id := fun a => if a = Addr.null then some 0 else none
  map_insert_count := 1
  raw_ptr_values := [Addr.loc 99]

/-- C3 witness: on the concrete traversal `evsSmall` every target is
found, and save-side finalize emits one looked-up id per pointer
occurrence in order; on `danglingMapper` some target is absent and
finalize fails with the address-not-found error. -/
theorem crps_save_finalize_witness :
    (∃ ids, (runOutM CRPSOutputMapper.init evsSmall).complete []
          = Except.ok ([] ++ [ids])
        ∧ ids.length = (runOutM CRPSOutputMapper.init evsSmall).raw_ptr_values.length
        ∧ ∀ j, j < (runOutM CRPSOutputMapper.init evsSmall).raw_ptr_values.length →
            (runOutM CRPSOutputMapper.init evsSmall).obj_ptr_to_id
              ((runOutM CRPSOutputMapper.init evsSmall).raw_ptr_values.getD j Addr.null)
              = some (ids.getD j 0))
    ∧ ∃ u ∈ danglingMapper.raw_ptr_values, danglingMapper.obj_ptr_to_id u = none
        ∧ danglingMapper.complete []
            = Except.error (CRPSError.memoryAddressNotFound u) :=
  ⟨(crps_save_finalize (runOutM CRPSOutputMapper.init evsSmall) []).2 (by decide),
   (crps_save_finalize danglingMapper []).1 (by decide)⟩

/-! ### The archive wrappers: one-shot finalize and use-after-complete -/

theorem outArchive_complete_completed (ar : OutArchiveState)
    (h : ar.completed = true) : ar.complete = (ar, none) := by
  simp [OutArchiveState.complete, h]

theorem outArchive_complete_sets_flag (ar : OutArchiveState)
    (h : ar.completed = false) : (ar.complete).1.completed = true := by
  simp only [OutArchiveState.complete, h, Bool.false_eq_true, if_false]
  cases hc : ({ ar with completed := true } : OutArchiveState).pointer_mapper.complete
      { ar with completed := true }.trailing with
  | ok tr => simp
  | error e => simp

theorem inArchive_complete_completed (ar : InArchiveState)
    (h : ar.completed = true) : ar.complete = (ar, none) := by
  simp [InArchiveState.complete, h]

theorem inArchive_complete_sets_flag (ar : InArchiveState)
    (h : ar.completed = false) : (ar.complete).1.completed = true := by
  simp [InArchiveState.complete, h]

/-- C7 counterexample: the Tracker's own finalize is not guarded — its
`completed` member is never set — so a second direct call to
`CRPSOutputMapper::complete` emits the identity-map vector into the
engine's stream a second time instead of being a no-op. -/
theorem crps_idempotent_finalize_cex :
    CRPSOutputMapper.init.complete [] = Except.ok [[]]
    ∧ CRPSOutputMapper.init.complete [[]] = Except.ok [[], []]
    ∧ (Except.ok [[], []] : Except CRPSError (List (List Nat)))
        ≠ Except.ok [[]] := by
  refine ⟨rfl, rfl, ?_⟩
  intro h
  cases h

/-- C7 (amended): the archive wrappers' finalize is idempotent — a second
`complete` call (in particular the destructor's call after an explicit
one) returns at once and performs no identity-map I/O, on both the save
and the load side — but the Tracker's own finalize carries no guard, so a
second direct call to the mapper's `complete` repeats the emission into
the engine's stream. -/
theorem crps_idempotent_finalize (arO : OutArchiveState)
    (arI : InArchiveState) (s : CRPSOutputMapper)
    (engine : List (List Nat)) (ids : List Nat)
    (hm : s.complete engine = Except.ok (engine ++ [ids])) :
    ((arO.complete).1.complete = ((arO.complete).1, none))
    ∧ ((arI.complete).1.complete = ((arI.complete).1, none))
    ∧ s.complete (engine ++ [ids]) = Except.ok (engine ++ [ids] ++ [ids]) := by
  refine ⟨?_, ?_, ?_⟩
  · cases h : arO.completed with
    | false =>
      exact outArchive_complete_completed _ (outArchive_complete_sets_flag arO h)
    | true =>
      rw [outArchive_complete_completed arO h]
      exact outArchive_complete_completed arO h
  · cases h : arI.completed with
    | false =>
      exact inArchive_complete_completed _ (inArchive_complete_sets_flag arI h)
    | true =>
      rw [inArchive_complete_completed arI h]
      exact inArchive_complete_completed arI h
  · have hb : buildRawToObj s.obj_ptr_to_id s.raw_ptr_values = Except.ok ids := by
      unfold CRPSOutputMapper.complete at hm
      cases hbr : buildRawToObj s.obj_ptr_to_id s.raw_ptr_values with
      | error e => rw [hbr] at hm; cases hm
      | ok ids' =>
        rw [hbr] at hm
        simp only [Except.map, Except.ok.injEq] at hm
        have h2 : [ids'] = [ids] := List.append_cancel_left hm
        injection h2 with h3
        rw [h3]
    simp [CRPSOutputMapper.complete, hb, Except.map]

/-- C7 witness: the wrapper-level one-shot behaviour at a concrete
archive state and a concrete mapper. -/
theorem crps_idempotent_finalize_witness :
    (((OutArchiveState.make []).complete).1.complete
        = (((OutArchiveState.make []).complete).1, none))
    ∧ (((InArchiveState.make [] (fun _ => Addr.null)).complete).1.complete
        = (((InArchiveState.make [] (fun _ => Addr.null)).complete).1, none))
    ∧ CRPSOutputMapper.init.complete ([] ++ [[]])
        = Except.ok ([] ++ [[]] ++ [[]]) :=
  crps_idempotent_finalize (OutArchiveState.make [])
    (InArchiveState.make [] (fun _ => Addr.null))
    CRPSOutputMapper.init [] [] rfl

/-- C5: on both the save-side and load-side wrappers, every visit
entry point — `operator()` and the boost-compatibility operators — made
after `complete` has run fails with the use-after-complete error and
forwards nothing to the real engine or to the mapper; before `complete`
has run, the visits are forwarded to the real engine and to the mapper. -/
theorem crps_use_after_complete (arO : OutArchiveState)
    (arI : InArchiveState) (evs : List Ev) (ev : Ev) :
    (arO.completed = true →
      arO.callOp evs = (arO, some CRPSError.serializationAfterComplete)
      ∧ arO.ampOp ev = (arO, some CRPSError.serializationAfterComplete)
      ∧ arO.shlOp ev = (arO, some CRPSError.serializationAfterComplete))
    ∧ (arO.completed = false →
      (arO.callOp evs).2 = none
      ∧ (arO.callOp evs).1.engineVisits = arO.engineVisits ++ evs
      ∧ (arO.callOp evs).1.pointer_mapper = runOutM arO.pointer_mapper evs)
    ∧ (arI.completed = true →
      arI.callOp evs = (arI, some CRPSError.serializationAfterComplete)
      ∧ arI.ampOp ev = (arI, some CRPSError.serializationAfterComplete)
      ∧ arI.shrOp ev = (arI, some CRPSError.serializationAfterComplete))
    ∧ (arI.completed = false →
      (arI.callOp evs).2 = none
      ∧ (arI.callOp evs).1.engineVisits = arI.engineVisits ++ evs
      ∧ (arI.callOp evs).1.pointer_mapper = runInM arI.pointer_mapper evs) := by
  refine ⟨fun h => ?_, fun h => ?_, fun h => ?_, fun h => ?_⟩
  · refine ⟨?_, ?_, ?_⟩ <;>
      simp [OutArchiveState.callOp, OutArchiveState.ampOp,
        OutArchiveState.shlOp, OutArchiveState.handle, h]
  · refine ⟨?_, ?_, ?_⟩ <;>
      simp [OutArchiveState.callOp, OutArchiveState.handle, h]
  · refine ⟨?_, ?_, ?_⟩ <;>
      simp [InArchiveState.callOp, InArchiveState.ampOp,
        InArchiveState.shrOp, InArchiveState.handle, h]
  · refine ⟨?_, ?_, ?_⟩ <;>
      simp [InArchiveState.callOp, InArchiveState.handle, h]

/-- C5 witness: a freshly made save-side wrapper forwards a visit, and
after its `complete` the same visit fails with the use-after-complete
error; likewise on the load side. -/
theorem crps_use_after_complete_witness :
    ((((OutArchiveState.make []).complete).1.callOp [Ev.binary]
        = (((OutArchiveState.make []).complete).1,
            some CRPSError.serializationAfterComplete))
      ∧ ((((OutArchiveState.make []).complete).1.ampOp Ev.binary)
        = (((OutArchiveState.make []).complete).1,
            some CRPSError.serializationAfterComplete))
      ∧ ((((OutArchiveState.make []).complete).1.shlOp Ev.binary)
        = (((OutArchiveState.make []).complete).1,
            some CRPSError.serializationAfterComplete)))
    ∧ (((OutArchiveState.make []).callOp [Ev.binary]).2 = none
      ∧ ((OutArchiveState.make []).callOp [Ev.binary]).1.engineVisits
          = (OutArchiveState.make []).engineVisits ++ [Ev.binary]
      ∧ ((OutArchiveState.make []).callOp [Ev.binary]).1.pointer_mapper
          = runOutM (OutArchiveState.make []).pointer_mapper [Ev.binary]) :=
  ⟨((crps_use_after_complete ((OutArchiveState.make []).complete).1
      (InArchiveState.make [] (fun _ => Addr.null)) [Ev.binary] Ev.binary).1
      (outArchive_complete_sets_flag _ rfl)),
   ((crps_use_after_complete (OutArchiveState.make [])
      (InArchiveState.make [] (fun _ => Addr.null)) [Ev.binary] Ev.binary).2.1 rfl)⟩

/-- C10: both wrappers set their `completed` flag before performing any
finalize I/O, so the flag is set even on the error paths of `complete`;
once `complete` has run, the destructor's implicit second call returns
without redoing the I/O, and every subsequent visit fails with the
use-after-complete error — on the save side additionally, when finalize
fails nothing was emitted into the engine's trailing stream. -/
theorem crps_completed_set_before_io (arO : OutArchiveState)
    (arI : InArchiveState) (evs : List Ev) :
    (arO.completed = false →
      (arO.complete).1.completed = true
      ∧ (arO.complete).1.complete = ((arO.complete).1, none)
      ∧ (arO.complete).1.callOp evs
          = ((arO.complete).1, some CRPSError.serializationAfterComplete)
      ∧ (∀ e, (arO.complete).2 = some e → (arO.complete).1.trailing = arO.trailing))
    ∧ (arI.completed = false →
      (arI.complete).1.completed = true
      ∧ (arI.complete).1.complete = ((arI.complete).1, none)
      ∧ (arI.complete).1.callOp evs
          = ((arI.complete).1, some CRPSError.serializationAfterComplete)) := by
  constructor
  · intro h
    have hf := outArchive_complete_sets_flag arO h
    refine ⟨hf, outArchive_complete_completed _ hf, ?_, ?_⟩
    · simp [OutArchiveState.callOp, OutArchiveState.handle, hf]
    · intro e he
      simp only [OutArchiveState.complete, h, Bool.false_eq_true, if_false] at he ⊢
      cases hc : ({ arO with completed := true } : OutArchiveState).pointer_mapper.complete
          { arO with completed := true }.trailing with
      | ok tr => rw [hc] at he; cases he
      | error e' => simp [hc]
  · intro h
    have hf := inArchive_complete_sets_flag arI h
    refine ⟨hf, inArchive_complete_completed _ hf, ?_⟩
    simp [InArchiveState.callOp, InArchiveState.handle, hf]

/-- A concrete save-side wrapper over `danglingMapper`, whose finalize
fails with the address-not-found error. -/
def arDangling : OutArchiveState where
  engineVisits := []
  trailing := []
  pointer_mapper := danglingMapper
  completed := false

/-- C10 witness: on a concrete wrapper whose finalize throws (dangling
target), the flag is still set, the second `complete` is a no-op, a later
visit fails, and nothing was emitted. -/
theorem crps_completed_set_before_io_witness :
    ((arDangling.complete).1.completed = true
      ∧ (arDangling.complete).1.complete = ((arDangling.complete).1, none)
      ∧ (arDangling.complete).1.callOp [Ev.binary]
          = ((arDangling.complete).1, some CRPSError.serializationAfterComplete)
      ∧ (∀ e, (arDangling.complete).2 = some e →
          (arDangling.complete).1.trailing = arDangling.trailing))
    ∧ (((InArchiveState.make [0] (fun _ => Addr.null)).complete).1.completed = true
      ∧ ((InArchiveState.make [0] (fun _ => Addr.null)).complete).1.complete
          = (((InArchiveState.make [0] (fun _ => Addr.null)).complete).1, none)
      ∧ ((InArchiveState.make [0] (fun _ => Addr.null)).complete).1.callOp [Ev.binary]
          = (((InArchiveState.make [0] (fun _ => Addr.null)).complete).1,
              some CRPSError.serializationAfterComplete)) :=
  ⟨(crps_completed_set_before_io arDangling
      (InArchiveState.make [0] (fun _ => Addr.null)) [Ev.binary]).1 rfl,
   (crps_completed_set_before_io arDangling
      (InArchiveState.make [0] (fun _ => Addr.null)) [Ev.binary]).2 rfl⟩

/-! ### The load-side finalize loop -/

theorem applyWrites_cons (p : Addr × Addr) (ps : List (Addr × Addr)) (h : Heap) :
    applyWrites (p :: ps) h = applyWrites ps (writeDeferment p.1 p.2 h) := rfl

theorem applyWrites_not_mem (ps : List (Addr × Addr)) (h : Heap) (a : Addr)
    (ha : a ∉ ps.map Prod.fst) : applyWrites ps h a = h a := by
  induction ps generalizing h with
  | nil => rfl
  | cons p ps ih =>
    have hne : a ≠ p.1 := by
      intro hev
      exact ha (by simp [hev])
    have hrest : a ∉ ps.map Prod.fst := by
      intro hmem
      exact ha (by simp [hmem])
    rw [applyWrites_cons, ih _ hrest]
    simp [writeDeferment, hne]

theorem applyWrites_getElem (ps : List (Addr × Addr)) (h : Heap)
    (hnd : (ps.map Prod.fst).Nodup) (j : Nat) (hj : j < ps.length) :
    applyWrites ps h ps[j].1 = ps[j].2 := by
  induction ps generalizing h j with
  | nil => cases hj
  | cons p ps ih =>
    have hnd0 : (p.1 :: ps.map Prod.fst).Nodup := hnd
    rcases List.nodup_cons.mp hnd0 with ⟨hp, hnd'⟩
    cases j with
    | zero =>
      rw [List.getElem_cons_zero, applyWrites_cons,
        applyWrites_not_mem ps _ p.1 hp]
      simp [writeDeferment]
    | succ j' =>
      rw [List.getElem_cons_succ, applyWrites_cons]
      exact ih _ hnd' j' (Nat.lt_of_succ_lt_succ hj)

theorem completeLoop_ok (raws : List Addr) (ids : List Nat)
    (obj : List Addr) (h : Heap) (hlen : raws.length = ids.length)
    (hrange : ∀ i ∈ ids, i < obj.length) :
    completeLoop (List.replicate raws.length writeDeferment) raws ids obj h
      = (applyWrites (raws.zip (ids.map (fun i => obj.getD i Addr.null))) h, none) := by
  induction raws generalizing ids h with
  | nil =>
    cases ids with
    | nil => rfl
    | cons i ids' => cases hlen
  | cons raw raws' ih =>
    cases ids with
    | nil => cases hlen
    | cons id ids' =>
      have hid : id < obj.length := hrange id (List.mem_cons_self _ _)
      have hget : obj[id]? = some obj[id] := List.getElem?_eq_getElem hid
      have hgd : obj.getD id Addr.null = obj[id] := List.getD_eq_getElem obj Addr.null hid
      simp only [List.length_cons, List.replicate_succ, completeLoop, hget]
      rw [ih ids' (writeDeferment raw obj[id] h) (Nat.succ_injective hlen)
        (fun i hi => hrange i (List.mem_cons_of_mem _ hi))]
      simp only [List.map_cons, List.zip_cons_cons, applyWrites_cons, hgd]

theorem completeLoop_first_bad (raws : List Addr) (ids : List Nat)
    (obj : List Addr) (h : Heap) (k : Nat)
    (hlen : raws.length = ids.length) (hk : k < ids.length)
    (hpre : ∀ i ∈ ids.take k, i < obj.length)
    (hbad : obj.length ≤ ids.getD k 0) :
    completeLoop (List.replicate raws.length writeDeferment) raws ids obj h
      = (applyWrites ((raws.take k).zip
            ((ids.take k).map (fun i => obj.getD i Addr.null))) h,
         some (CRPSError.objectIndexExceedsCount (raws.getD k Addr.null))) := by
  induction k generalizing raws ids h with
  | zero =>
    cases ids with
    | nil => cases hk
    | cons id ids' =>
      cases raws with
      | nil => cases hlen
      | cons raw raws' =>
        have hbad' : obj.length ≤ id := by simpa using hbad
        have hget : obj[id]? = none := List.getElem?_eq_none hbad'
        simp only [List.length_cons, List.replicate_succ, completeLoop, hget,
          List.take_zero, List.zip_nil_left, List.getD_cons_zero]
        rfl
  | succ k' ih =>
    cases ids with
    | nil => cases hk
    | cons id ids' =>
      cases raws with
      | nil => cases hlen
      | cons raw raws' =>
        have hid : id < obj.length := hpre id (by simp)
        have hget : obj[id]? = some obj[id] := List.getElem?_eq_getElem hid
        have hgd : obj.getD id Addr.null = obj[id] := List.getD_eq_getElem obj Addr.null hid
        simp only [List.length_cons, List.replicate_succ, completeLoop, hget]
        rw [ih raws' ids' (writeDeferment raw obj[id] h) (Nat.succ_injective hlen)
          (Nat.lt_of_succ_lt_succ hk)
          (fun i hi => hpre i (by simpa using List.mem_cons_of_mem id hi))
          (by simpa using hbad)]
        simp only [List.take_succ_cons, List.map_cons, List.zip_cons_cons,
          applyWrites_cons, List.getD_cons_succ, hgd]

theorem runInM_deferments (evs : List Ev) (s : CRPSInputMapper)
    (h : s.deferedPtrLoads = List.replicate s.raw_ptrs.length writeDeferment) :
    (runInM s evs).deferedPtrLoads
      = List.replicate (runInM s evs).raw_ptrs.length writeDeferment := by
  induction evs generalizing s with
  | nil => exact h
  | cons e rest ih =>
    cases e with
    | unit sa la => exact ih _ h
    | ptr sslot starget lslot =>
      refine ih _ ?_
      simp only [CRPSInputMapper.visit, CRPSInputMapper.trackPointer,
        CRPSInputMapper.trackAddress, h, List.length_append, List.length_singleton]
      rw [List.replicate_succ' _ writeDeferment]
    | binary => exact ih _ h

theorem inputMapper_complete_ok (s : CRPSInputMapper) (ids : List Nat) (h : Heap)
    (hdefs : s.deferedPtrLoads = List.replicate s.raw_ptrs.length writeDeferment)
    (hlen : ids.length = s.raw_ptrs.length)
    (hrange : ∀ i ∈ ids, i < s.obj_ptrs.length) :
    s.complete ids h
      = (applyWrites (s.raw_ptrs.zip
          (ids.map (fun i => s.obj_ptrs.getD i Addr.null))) h, none) := by
  unfold CRPSInputMapper.complete
  rw [if_neg (by simp [hlen]), hdefs]
  exact completeLoop_ok _ _ _ _ hlen.symm hrange

theorem inputMapper_complete_values (s : CRPSInputMapper) (ids : List Nat)
    (h : Heap)
    (hdefs : s.deferedPtrLoads = List.replicate s.raw_ptrs.length writeDeferment)
    (hlen : ids.length = s.raw_ptrs.length)
    (hrange : ∀ i ∈ ids, i < s.obj_ptrs.length)
    (hnd : s.raw_ptrs.Nodup) (j : Nat) (hj : j < s.raw_ptrs.length) :
    (s.complete ids h).1 (s.raw_ptrs.getD j Addr.null)
      = s.obj_ptrs.getD (ids.getD j 0) Addr.null := by
  rw [inputMapper_complete_ok s ids h hdefs hlen hrange]
  have hjz : j < (s.raw_ptrs.zip
      (ids.map (fun i => s.obj_ptrs.getD i Addr.null))).length := by
    rw [List.length_zip, List.length_map, hlen]
    exact Nat.lt_min.mpr ⟨hj, hj⟩
  have hfst : (s.raw_ptrs.zip
      (ids.map (fun i => s.obj_ptrs.getD i Addr.null))).map Prod.fst
        = s.raw_ptrs :=
    List.map_fst_zip _ _ (by rw [List.length_map, hlen])
  have hjm : j < (ids.map (fun i => s.obj_ptrs.getD i Addr.null)).length := by
    rw [List.length_map, hlen]
    exact hj
  have hz : (s.raw_ptrs.zip
      (ids.map (fun i => s.obj_ptrs.getD i Addr.null)))[j]
        = (s.raw_ptrs[j],
           (ids.map (fun i => s.obj_ptrs.getD i Addr.null)).get ⟨j, hjm⟩) :=
    List.getElem_zip
  have h1 : s.raw_ptrs.getD j Addr.null = s.raw_ptrs[j] :=
    List.getD_eq_getElem _ _ hj
  have hnd' : ((s.raw_ptrs.zip
      (ids.map (fun i => s.obj_ptrs.getD i Addr.null))).map Prod.fst).Nodup := by
    rw [hfst]; exact hnd
  have h2 := applyWrites_getElem _ h hnd' j hjz
  rw [hz] at h2
  simp only at h2
  have hj2 : j < ids.length := by rw [hlen]; exact hj
  show applyWrites (s.raw_ptrs.zip
      (ids.map (fun i => s.obj_ptrs.getD i Addr.null))) h
      (s.raw_ptrs.getD j Addr.null) = _
  rw [h1, h2, List.get_eq_getElem, List.getElem_map, List.getD_eq_getElem ids 0 hj2]

theorem exists_first_oob (obj_len : Nat) (l : List Nat)
    (h : ∃ i ∈ l, obj_len ≤ i) :
    ∃ k, k < l.length ∧ obj_len ≤ l.getD k 0
      ∧ ∀ i ∈ l.take k, i < obj_len := by
  induction l with
  | nil => rcases h with ⟨i, hi, _⟩; cases hi
  | cons a l ih =>
    by_cases hPa : obj_len ≤ a
    · exact ⟨0, by simp, by simpa using hPa, by simp⟩
    · have h' : ∃ i ∈ l, obj_len ≤ i := by
        rcases h with ⟨i, hi, hPi⟩
        rcases List.mem_cons.mp hi with rfl | hi'
        · exact absurd hPi hPa
        · exact ⟨i, hi', hPi⟩
      rcases ih h' with ⟨k, hk, hPk, hpre⟩
      refine ⟨k + 1, by simpa using Nat.succ_lt_succ hk, by simpa using hPk, ?_⟩
      intro i hi
      rcases List.mem_cons.mp (by simpa using hi : i ∈ a :: l.take k) with rfl | hi'
      · exact Nat.lt_of_not_le hPa
      · exact hpre i hi'

/-- C4: load-side finalize fails with the size-mismatch graph identity
error when the id sequence read from the stream has a length different
from the number of recorded pointer slots; it fails with the range graph
identity error when some read id is out of range of the id→address table;
and otherwise it invokes every slot's deferred assign action with the
resolved target identity, in order. -/
theorem crps_load_finalize_errors (evs : List Ev) (ids : List Nat) (h : Heap) :
    (ids.length ≠ (runInM CRPSInputMapper.init evs).raw_ptrs.length →
      (runInM CRPSInputMapper.init evs).complete ids h
        = (h, some CRPSError.sizeMismatch))
    ∧ (ids.length = (runInM CRPSInputMapper.init evs).raw_ptrs.length →
       (∃ i ∈ ids, (runInM CRPSInputMapper.init evs).obj_ptrs.length ≤ i) →
      ∃ slot, ((runInM CRPSInputMapper.init evs).complete ids h).2
          = some (CRPSError.objectIndexExceedsCount slot))
    ∧ (ids.length = (runInM CRPSInputMapper.init evs).raw_ptrs.length →
       (∀ i ∈ ids, i < (runInM CRPSInputMapper.init evs).obj_ptrs.length) →
      (runInM CRPSInputMapper.init evs).complete ids h
        = (applyWrites ((runInM CRPSInputMapper.init evs).raw_ptrs.zip
            (ids.map (fun i =>
              (runInM CRPSInputMapper.init evs).obj_ptrs.getD i Addr.null))) h,
          none)) := by
  have hdefs := runInM_deferments evs CRPSInputMapper.init rfl
  refine ⟨fun hne => ?_, fun hlen hoob => ?_, fun hlen hrange => ?_⟩
  · simp [CRPSInputMapper.complete, hne]
  · rcases exists_first_oob (runInM CRPSInputMapper.init evs).obj_ptrs.length
      ids hoob with ⟨k, hk, hbad, hpre⟩
    refine ⟨(runInM CRPSInputMapper.init evs).raw_ptrs.getD k Addr.null, ?_⟩
    unfold CRPSInputMapper.complete
    rw [if_neg (by simp [hlen]), hdefs,
      completeLoop_first_bad _ _ _ _ k hlen.symm hk hpre hbad]
  · exact inputMapper_complete_ok _ ids h hdefs hlen hrange

/-- The all-null initial load heap used by witnesses. -/
def hNull : Heap := fun _ => Addr.null

/-- C4 witness: on the load side of the concrete traversal `evsSmall`
(two pointer slots, four constructed units), a one-element id sequence
fails with the size mismatch, an out-of-range id fails with the range
error, and a well-formed sequence performs every deferred write. -/
theorem crps_load_finalize_errors_witness :
    ((runInM CRPSInputMapper.init evsSmall).complete [0] hNull
        = (hNull, some CRPSError.sizeMismatch))
    ∧ (∃ slot, ((runInM CRPSInputMapper.init evsSmall).complete [9, 0] hNull).2
        = some (CRPSError.objectIndexExceedsCount slot))
    ∧ ((runInM CRPSInputMapper.init evsSmall).complete [1, 0] hNull
        = (applyWrites ((runInM CRPSInputMapper.init evsSmall).raw_ptrs.zip
            (([1, 0] : List Nat).map (fun i =>
              (runInM CRPSInputMapper.init evsSmall).obj_ptrs.getD i Addr.null))) hNull,
          none)) :=
  ⟨(crps_load_finalize_errors evsSmall [0] hNull).1 (by decide),
   (crps_load_finalize_errors evsSmall [9, 0] hNull).2.1 (by decide) (by decide),
   (crps_load_finalize_errors evsSmall [1, 0] hNull).2.2 (by decide) (by decide)⟩

/-- C9: load-side finalize is atomic for the size-mismatch error — the
length check precedes every deferred write, so on a mismatch the heap is
returned untouched — but not for the range error: when the first
out-of-range id sits at position `k`, the deferred writes of all
positions before `k` have already been applied to the heap at the moment
the range error is raised. -/
theorem crps_load_finalize_partial_writes (evs : List Ev) (ids : List Nat)
    (h : Heap) (k : Nat) :
    (ids.length ≠ (runInM CRPSInputMapper.init evs).raw_ptrs.length →
      (runInM CRPSInputMapper.init evs).complete ids h
        = (h, some CRPSError.sizeMismatch))
    ∧ (ids.length = (runInM CRPSInputMapper.init evs).raw_ptrs.length →
       k < ids.length →
       (∀ i ∈ ids.take k, i < (runInM CRPSInputMapper.init evs).obj_ptrs.length) →
       (runInM CRPSInputMapper.init evs).obj_ptrs.length ≤ ids.getD k 0 →
      (runInM CRPSInputMapper.init evs).complete ids h
        = (applyWrites (((runInM CRPSInputMapper.init evs).raw_ptrs.take k).zip
            ((ids.take k).map (fun i =>
              (runInM CRPSInputMapper.init evs).obj_ptrs.getD i Addr.null))) h,
          some (CRPSError.objectIndexExceedsCount
            ((runInM CRPSInputMapper.init evs).raw_ptrs.getD k Addr.null)))) := by
  have hdefs := runInM_deferments evs CRPSInputMapper.init rfl
  refine ⟨fun hne => ?_, fun hlen hk hpre hbad => ?_⟩
  · simp [CRPSInputMapper.complete, hne]
  · unfold CRPSInputMapper.complete
    rw [if_neg (by simp [hlen]), hdefs,
      completeLoop_first_bad _ _ _ _ k hlen.symm hk hpre hbad]

/-- C9 witness: on the load side of `evsSmall` with ids `[1, 9]`, the
range error strikes at position 1 after the write for position 0 has
landed in the heap; and a mismatched length leaves the heap untouched. -/
theorem crps_load_finalize_partial_writes_witness :
    ((runInM CRPSInputMapper.init evsSmall).complete [] hNull
        = (hNull, some CRPSError.sizeMismatch))
    ∧ ((runInM CRPSInputMapper.init evsSmall).complete [1, 9] hNull
        = (applyWrites (((runInM CRPSInputMapper.init evsSmall).raw_ptrs.take 1).zip
            ((([1, 9] : List Nat).take 1).map (fun i =>
              (runInM CRPSInputMapper.init evsSmall).obj_ptrs.getD i Addr.null))) hNull,
          some (CRPSError.objectIndexExceedsCount
            ((runInM CRPSInputMapper.init evsSmall).raw_ptrs.getD 1 Addr.null)))) :=
  ⟨(crps_load_finalize_partial_writes evsSmall [] hNull 1).1 (by decide),
   (crps_load_finalize_partial_writes evsSmall [1, 9] hNull 1).2
     (by decide) (by decide) (by decide) (by decide)⟩

/-! ### Null identity -/

/-- The tracked address of an event is non-null: true of every C++
traversal, where tracked addresses are `addressof` of live objects (a
pointer's *value* may still be null). -/
def evTrackedNonNull : Ev → Prop
  | Ev.unit sa _ => sa ≠ Addr.null
  | Ev.ptr sslot _ _ => sslot ≠ Addr.null
  | Ev.binary => True

instance : DecidablePred evTrackedNonNull := fun e =>
  match e with
  | Ev.unit sa _ => inferInstanceAs (Decidable (sa ≠ Addr.null))
  | Ev.ptr sslot _ _ => inferInstanceAs (Decidable (sslot ≠ Addr.null))
  | Ev.binary => inferInstanceAs (Decidable True)

theorem runOutM_null_id (evs : List Ev) (s : CRPSOutputMapper)
    (hnn : ∀ e ∈ evs, evTrackedNonNull e)
    (h : s.obj_ptr_to_id Addr.null = some 0) :
    (runOutM s evs).obj_ptr_to_id Addr.null = some 0 := by
  induction evs generalizing s with
  | nil => exact h
  | cons e rest ih =>
    have hrest : ∀ e' ∈ rest, evTrackedNonNull e' :=
      fun e' he' => hnn e' (List.mem_cons_of_mem e he')
    cases e with
    | unit sa la =>
      have hsa : sa ≠ Addr.null := hnn _ (List.mem_cons_self _ _)
      have hns : Addr.null ≠ sa := fun hc => hsa hc.symm
      refine ih _ hrest ?_
      simpa [CRPSOutputMapper.visit, CRPSOutputMapper.trackAddress, hns] using h
    | ptr sslot starget lslot =>
      have hsl : sslot ≠ Addr.null := hnn _ (List.mem_cons_self _ _)
      have hns : Addr.null ≠ sslot := fun hc => hsl hc.symm
      refine ih _ hrest ?_
      simpa [CRPSOutputMapper.visit, CRPSOutputMapper.trackPointer,
        CRPSOutputMapper.trackAddress, hns] using h
    | binary => exact ih _ hrest h

theorem runInM_obj_ptrs_head (evs : List Ev) (s : CRPSInputMapper)
    (h : s.obj_ptrs[0]? = some Addr.null) :
    (runInM s evs).obj_ptrs[0]? = some Addr.null := by
  induction evs generalizing s with
  | nil => exact h
  | cons e rest ih =>
    have hlen : 0 < s.obj_ptrs.length := (List.getElem?_eq_some.mp h).1
    cases e with
    | unit sa la =>
      refine ih _ ?_
      rw [show (CRPSInputMapper.visit s (Ev.unit sa la)).obj_ptrs
          = s.obj_ptrs ++ [la] from rfl, List.getElem?_append_left hlen]
      exact h
    | ptr sslot starget lslot =>
      refine ih _ ?_
      rw [show (CRPSInputMapper.visit s (Ev.ptr sslot starget lslot)).obj_ptrs
          = (s.obj_ptrs ++ [lslot]) from rfl, List.getElem?_append_left hlen]
      exact h
    | binary => exact ih _ h

/-- C2: id 0 always denotes the null target.  The save-side constructor
pre-maps the null address to id 0 and the load-side constructor pre-fills
table index 0 with null; both facts survive any traversal whose tracked
units live at non-null addresses.  A null pointer value is looked up as
id 0 by save-side finalize, and a pointer slot whose read id is 0 is
resolved to null by load-side finalize.  `trackPointer` records a null
pointer without ever touching the address→id map at any address other
than the slot's own (the self-reference tracking path is never taken for
the pointee). -/
theorem crps_null_identity (evs : List Ev) (ids : List Nat) (h0 : Heap)
    (hnn : ∀ e ∈ evs, evTrackedNonNull e)
    (hlen : ids.length = (runInM CRPSInputMapper.init evs).raw_ptrs.length)
    (hrange : ∀ i ∈ ids, i < (runInM CRPSInputMapper.init evs).obj_ptrs.length)
    (hnd : (runInM CRPSInputMapper.init evs).raw_ptrs.Nodup)
    (k : Nat) (hk : k < (runInM CRPSInputMapper.init evs).raw_ptrs.length)
    (hk0 : ids.getD k 0 = 0) :
    CRPSOutputMapper.init.obj_ptr_to_id Addr.null = some 0
    ∧ CRPSInputMapper.init.obj_ptrs = [Addr.null]
    ∧ (runOutM CRPSOutputMapper.init evs).obj_ptr_to_id Addr.null = some 0
    ∧ (runInM CRPSInputMapper.init evs).obj_ptrs[0]? = some Addr.null
    ∧ (∀ (s : CRPSOutputMapper) (slot target a : Addr), a ≠ slot →
        (s.trackPointer slot target).obj_ptr_to_id a = s.obj_ptr_to_id a)
    ∧ (∀ (j : Nat), j < (runOutM CRPSOutputMapper.init evs).raw_ptr_values.length →
        (runOutM CRPSOutputMapper.init evs).raw_ptr_values.getD j Addr.null
          = Addr.null →
        ∀ oids, buildRawToObj (runOutM CRPSOutputMapper.init evs).obj_ptr_to_id
            (runOutM CRPSOutputMapper.init evs).raw_ptr_values = Except.ok oids →
        oids.getD j 0 = 0)
    ∧ ((runInM CRPSInputMapper.init evs).complete ids h0).1
        ((runInM CRPSInputMapper.init evs).raw_ptrs.getD k Addr.null)
        = Addr.null := by
  have hnull : (runOutM CRPSOutputMapper.init evs).obj_ptr_to_id Addr.null
      = some 0 := runOutM_null_id evs _ hnn (by simp [CRPSOutputMapper.init])
  have hhead : (runInM CRPSInputMapper.init evs).obj_ptrs[0]? = some Addr.null :=
    runInM_obj_ptrs_head evs _ rfl
  refine ⟨by simp [CRPSOutputMapper.init], rfl, hnull, hhead, ?_, ?_, ?_⟩
  · intro s slot target a hne
    simp [CRPSOutputMapper.trackPointer, CRPSOutputMapper.trackAddress, hne]
  · intro j hj hjnull oids hoids
    have := buildRawToObj_ok_getD hoids j hj
    rw [hjnull, hnull] at this
    exact (Option.some_injective _ this).symm
  · have := inputMapper_complete_values (runInM CRPSInputMapper.init evs) ids h0
      (runInM_deferments evs CRPSInputMapper.init rfl) hlen hrange hnd k hk
    rw [this, hk0, List.getD_eq_getElem?_getD, hhead]
    rfl

/-- C2 witness: on the concrete traversal `evsSmall` (whose second
pointer holds null) with the id sequence `[1, 0]`, all the null-identity
facts hold and the slot that read id 0 resolves to null. -/
theorem crps_null_identity_witness :
    CRPSOutputMapper.init.obj_ptr_to_id Addr.null = some 0
    ∧ CRPSInputMapper.init.obj_ptrs = [Addr.null]
    ∧ (runOutM CRPSOutputMapper.init evsSmall).obj_ptr_to_id Addr.null = some 0
    ∧ (runInM CRPSInputMapper.init evsSmall).obj_ptrs[0]? = some Addr.null
    ∧ (∀ (s : CRPSOutputMapper) (slot target a : Addr), a ≠ slot →
        (s.trackPointer slot target).obj_ptr_to_id a = s.obj_ptr_to_id a)
    ∧ (∀ (j : Nat), j < (runOutM CRPSOutputMapper.init evsSmall).raw_ptr_values.length →
        (runOutM CRPSOutputMapper.init evsSmall).raw_ptr_values.getD j Addr.null
          = Addr.null →
        ∀ oids, buildRawToObj (runOutM CRPSOutputMapper.init evsSmall).obj_ptr_to_id
            (runOutM CRPSOutputMapper.init evsSmall).raw_ptr_values = Except.ok oids →
        oids.getD j 0 = 0)
    ∧ ((runInM CRPSInputMapper.init evsSmall).complete [1, 0] hNull).1
        ((runInM CRPSInputMapper.init evsSmall).raw_ptrs.getD 1 Addr.null)
        = Addr.null :=
  crps_null_identity evsSmall [1, 0] hNull (by decide) (by decide) (by decide)
    (by decide) 1 (by decide) (by decide)

/-! ### Round trip -/

/-- Number of object-ids a traversal consumes (one per tracked unit, one
per pointer occurrence — `trackPointer` tracks the slot as a unit too). -/
def unitCount : List Ev → Nat
  | [] => 0
  | Ev.unit _ _ :: r => unitCount r + 1
  | Ev.ptr _ _ _ :: r => unitCount r + 1
  | Ev.binary :: r => unitCount r

/-- The save-side and load-side trackers agree: the save counter equals
the load table length, the pointer lists have equal length, and every id
the save map can answer indexes into the load table. -/
def Aligned (O : CRPSOutputMapper) (I : CRPSInputMapper) : Prop :=
  O.map_insert_count = I.obj_ptrs.length
  ∧ O.raw_ptr_values.length = I.raw_ptrs.length
  ∧ ∀ a id, O.obj_ptr_to_id a = some id → id < I.obj_ptrs.length

theorem aligned_init : Aligned CRPSOutputMapper.init CRPSInputMapper.init := by
  refine ⟨rfl, rfl, ?_⟩
  intro a id h
  by_cases ha : a = Addr.null
  · have hsome : (some 0 : Option Nat) = some id := by
      simpa [CRPSOutputMapper.init, ha] using h
    have hid : (0 : Nat) = id := Option.some_injective _ hsome
    show id < 1
    omega
  · simp [CRPSOutputMapper.init, ha] at h

theorem aligned_trackAddress (O : CRPSOutputMapper) (I : CRPSInputMapper)
    (sa la : Addr) (hal : Aligned O I)
    (hb : I.obj_ptrs.length + 1 < UINT32_MOD) :
    Aligned (O.trackAddress sa) (I.trackAddress la) := by
  rcases hal with ⟨hcnt, hraw, hmap⟩
  have hlen1 : (I.trackAddress la).obj_ptrs.length = I.obj_ptrs.length + 1 := by
    simp [CRPSInputMapper.trackAddress]
  refine ⟨?_, hraw, ?_⟩
  · show (O.map_insert_count + 1) % UINT32_MOD = _
    rw [hlen1, hcnt]
    exact Nat.mod_eq_of_lt hb
  · intro a id h
    rw [hlen1]
    by_cases ha : a = sa
    · have hsome : (some O.map_insert_count : Option Nat) = some id := by
        simpa [CRPSOutputMapper.trackAddress, ha] using h
      have hid : O.map_insert_count = id := Option.some_injective _ hsome
      omega
    · have h' : O.obj_ptr_to_id a = some id := by
        simpa [CRPSOutputMapper.trackAddress, ha] using h
      have := hmap a id h'
      omega

theorem aligned_trackPointer (O : CRPSOutputMapper) (I : CRPSInputMapper)
    (sslot starget lslot : Addr) (hal : Aligned O I)
    (hb : I.obj_ptrs.length + 1 < UINT32_MOD) :
    Aligned (O.trackPointer sslot starget) (I.trackPointer lslot) := by
  rcases hal with ⟨hcnt, hraw, hmap⟩
  exact aligned_trackAddress
    { O with raw_ptr_values := O.raw_ptr_values ++ [starget] }
    { I with
        raw_ptrs := I.raw_ptrs ++ [lslot]
        deferedPtrLoads := I.deferedPtrLoads ++ [writeDeferment] }
    sslot lslot ⟨hcnt, by simp [hraw], hmap⟩ hb

theorem aligned_run (evs : List Ev) (O : CRPSOutputMapper)
    (I : CRPSInputMapper) (hal : Aligned O I)
    (hb : I.obj_ptrs.length + unitCount evs < UINT32_MOD) :
    Aligned (runOutM O evs) (runInM I evs) := by
  induction evs generalizing O I with
  | nil => exact hal
  | cons e rest ih =>
    cases e with
    | unit sa la =>
      have hb1 : I.obj_ptrs.length + 1 < UINT32_MOD := by
        have : unitCount (Ev.unit sa la :: rest) = unitCount rest + 1 := rfl
        omega
      refine ih (O.trackAddress sa) (I.trackAddress la)
        (aligned_trackAddress O I sa la hal hb1) ?_
      have h1 : (I.trackAddress la).obj_ptrs.length = I.obj_ptrs.length + 1 := by
        simp [CRPSInputMapper.trackAddress]
      have h2 : unitCount (Ev.unit sa la :: rest) = unitCount rest + 1 := rfl
      omega
    | ptr sslot starget lslot =>
      have hb1 : I.obj_ptrs.length + 1 < UINT32_MOD := by
        have : unitCount (Ev.ptr sslot starget lslot :: rest)
            = unitCount rest + 1 := rfl
        omega
      refine ih (O.trackPointer sslot starget) (I.trackPointer lslot)
        (aligned_trackPointer O I sslot starget lslot hal hb1) ?_
      have h1 : (I.trackPointer lslot).obj_ptrs.length = I.obj_ptrs.length + 1 := by
        simp [CRPSInputMapper.trackPointer, CRPSInputMapper.trackAddress]
      have h2 : unitCount (Ev.ptr sslot starget lslot :: rest)
          = unitCount rest + 1 := rfl
      omega
    | binary => exact ih O I hal hb

/-- C1: saving an object graph through the save-side tracker and loading
it through the load-side tracker with the same traversal reconstructs an
isomorphic pointer structure.  If save-side finalize succeeds and emits
`ids` into the stream, then load-side finalize succeeds, and any two
pointer occurrences whose save-time targets coincide are resolved to the
same load-time value — a freshly constructed unit of the load-side
id→address table.  (The bound keeps the uint32 id counter from wrapping;
slots occupy distinct addresses, as C++ objects do.) -/
theorem crps_round_trip (evs : List Ev) (ids : List Nat) (h0 : Heap)
    (hb : 1 + unitCount evs < UINT32_MOD)
    (hok : (runOutM CRPSOutputMapper.init evs).complete [] = Except.ok [ids])
    (hnd : (runInM CRPSInputMapper.init evs).raw_ptrs.Nodup)
    (j k : Nat)
    (hj : j < (runOutM CRPSOutputMapper.init evs).raw_ptr_values.length)
    (hk : k < (runOutM CRPSOutputMapper.init evs).raw_ptr_values.length)
    (hsame : (runOutM CRPSOutputMapper.init evs).raw_ptr_values.getD j Addr.null
      = (runOutM CRPSOutputMapper.init evs).raw_ptr_values.getD k Addr.null) :
    ((runInM CRPSInputMapper.init evs).complete ids h0).2 = none
    ∧ ((runInM CRPSInputMapper.init evs).complete ids h0).1
        ((runInM CRPSInputMapper.init evs).raw_ptrs.getD j Addr.null)
      = ((runInM CRPSInputMapper.init evs).complete ids h0).1
        ((runInM CRPSInputMapper.init evs).raw_ptrs.getD k Addr.null)
    ∧ ∃ idv, idv < (runInM CRPSInputMapper.init evs).obj_ptrs.length
      ∧ ((runInM CRPSInputMapper.init evs).complete ids h0).1
          ((runInM CRPSInputMapper.init evs).raw_ptrs.getD j Addr.null)
        = (runInM CRPSInputMapper.init evs).obj_ptrs.getD idv Addr.null := by
  have hal : Aligned (runOutM CRPSOutputMapper.init evs)
      (runInM CRPSInputMapper.init evs) :=
    aligned_run evs _ _ aligned_init (by
      show ([Addr.null] : List Addr).length + unitCount evs < UINT32_MOD
      simpa [Nat.add_comm] using hb)
  rcases hal with ⟨hcnt, hraw, hmap⟩
  have hbr : buildRawToObj (runOutM CRPSOutputMapper.init evs).obj_ptr_to_id
      (runOutM CRPSOutputMapper.init evs).raw_ptr_values = Except.ok ids := by
    unfold CRPSOutputMapper.complete at hok
    cases hc : buildRawToObj (runOutM CRPSOutputMapper.init evs).obj_ptr_to_id
        (runOutM CRPSOutputMapper.init evs).raw_ptr_values with
    | error e => rw [hc] at hok; cases hok
    | ok ids' =>
      rw [hc] at hok
      simp only [Except.map, Except.ok.injEq, List.nil_append] at hok
      injection hok with h1
      rw [h1]
  have hlen0 : ids.length = (runOutM CRPSOutputMapper.init evs).raw_ptr_values.length :=
    buildRawToObj_ok_length hbr
  have hlen : ids.length = (runInM CRPSInputMapper.init evs).raw_ptrs.length := by
    rw [hlen0, hraw]
  have hrange : ∀ i ∈ ids, i < (runInM CRPSInputMapper.init evs).obj_ptrs.length := by
    intro i hi
    rcases buildRawToObj_ok_mem hbr i hi with ⟨t, _, hmt⟩
    exact hmap t i hmt
  have hdefs := runInM_deferments evs CRPSInputMapper.init rfl
  have hcomp := inputMapper_complete_ok (runInM CRPSInputMapper.init evs)
    ids h0 hdefs hlen hrange
  have hj' : j < (runInM CRPSInputMapper.init evs).raw_ptrs.length := hraw ▸ hj
  have hk' : k < (runInM CRPSInputMapper.init evs).raw_ptrs.length := hraw ▸ hk
  have hvj := inputMapper_complete_values (runInM CRPSInputMapper.init evs)
    ids h0 hdefs hlen hrange hnd j hj'
  have hvk := inputMapper_complete_values (runInM CRPSInputMapper.init evs)
    ids h0 hdefs hlen hrange hnd k hk'
  have hidj := buildRawToObj_ok_getD hbr j hj
  have hidk := buildRawToObj_ok_getD hbr k hk
  rw [hsame, hidk] at hidj
  have hideq : ids.getD j 0 = ids.getD k 0 := (Option.some_injective _ hidj).symm
  refine ⟨by rw [hcomp], ?_, ?_⟩
  · rw [hvj, hvk, hideq]
  · refine ⟨ids.getD j 0, ?_, hvj⟩
    have hjlen : j < ids.length := by rw [hlen0]; exact hj
    have hmem : ids.getD j 0 ∈ ids := by
      rw [List.getD_eq_getElem ids 0 hjlen]
      exact List.getElem_mem hjlen
    exact hrange _ hmem

/-- A concrete traversal with shared-target fan-in: one unit and two
pointer slots both targeting it. -/
def evsShared : List Ev :=
  [Ev.unit (Addr.loc 10) (Addr.loc 20),
   Ev.ptr (Addr.loc 11) (Addr.loc 10) (Addr.loc 21),
   Ev.ptr (Addr.loc 12) (Addr.loc 10) (Addr.loc 22)]

/-- C1 witness: round-tripping `evsShared` (two pointers sharing one
target) succeeds and both loaded slots hold the same freshly constructed
unit. -/
theorem crps_round_trip_witness :
    ((runInM CRPSInputMapper.init evsShared).complete [1, 1] hNull).2 = none
    ∧ ((runInM CRPSInputMapper.init evsShared).complete [1, 1] hNull).1
        ((runInM CRPSInputMapper.init evsShared).raw_ptrs.getD 0 Addr.null)
      = ((runInM CRPSInputMapper.init evsShared).complete [1, 1] hNull).1
        ((runInM CRPSInputMapper.init evsShared).raw_ptrs.getD 1 Addr.null)
    ∧ ∃ idv, idv < (runInM CRPSInputMapper.init evsShared).obj_ptrs.length
      ∧ ((runInM CRPSInputMapper.init evsShared).complete [1, 1] hNull).1
          ((runInM CRPSInputMapper.init evsShared).raw_ptrs.getD 0 Addr.null)
        = (runInM CRPSInputMapper.init evsShared).obj_ptrs.getD idv Addr.null :=
  crps_round_trip evsShared [1, 1] hNull (by decide) rfl (by decide)
    0 1 (by decide) (by decide) (by decide)
